import Mathlib

/-!
Shallow embedding of the `openvpn-management` crate (`src/lib.rs`,
`src/error.rs`, `src/client.rs`) and verification of the frozen claims
about its `status`-response parser.

Modelling conventions:
* Rust `String`/`&str` values are Lean `String`s; the per-character
  operations of the source (`split`, `starts_with`, `String::pop`) are
  modelled on the underlying character list (`String.data`) so that the
  proofs can proceed by list induction.
* Rust `i64` parsing is modelled exactly (optional sign, one or more
  ASCII decimal digits, value within the `i64` range); `f64` parsing is
  modelled by the grammar documented for `f64::from_str` (sign, then
  `inf`/`infinity`/`nan` case-insensitively, or a decimal number with
  optional fraction and exponent).  No claim depends on the IEEE value
  of a parsed float, so the abstract `F64` type keeps the accepted
  literal instead of an IEEE bit pattern.
* `chrono::DateTime<Utc>` is abstracted to the Unix epoch second it was
  built from (`Utc.timestamp(secs, 0)` in the source).
* Fallible Rust functions returning `Result<T, OpenvpnError>` become
  `Except OpenvpnError T`.
* The nondeterministic initial timestamp `Utc::now()` in
  `parse_status_output` is passed in as an explicit `now` argument.
-/

deriving instance DecidableEq for Except

namespace Openvpn

/-- Abstraction of `chrono::DateTime<Utc>`: the UTC time point that is
`secs` seconds after the Unix epoch (`Utc.timestamp(secs, 0)`). -/
structure UtcDateTime where
  secs : Int
deriving DecidableEq, Repr

/-- Abstract stand-in for a Rust `f64` produced by float parsing.  The
claims under verification depend only on whether parsing succeeds, never
on the numeric value, so the accepted literal is retained. -/
structure F64 where
  lit : String
deriving DecidableEq, Repr

/-- The error enumeration of `src/error.rs` (`OpenvpnError`).  The
wrapped payloads `io::Error`, `ParseIntError`, `ParseFloatError` and
`AddrParseError` carry no information used by the parser logic, so they
are abstracted (`IoErr` keeps a message string).  `MissingURLInput` is
the variant constructed by `CommandManagerBuilder::build` in
`src/lib.rs`. -/
inductive OpenvpnError where
  | IoErr (msg : String)
  | ParseInt
  | ParseFloat
  | ParseAddr
  | MalformedResponse (response : String)
  | MissingURLInput (url : String)
deriving DecidableEq, Repr

/-- `src/client.rs`: `Client` record. -/
structure Client where
  name : String
  ip_address : String
  connected_since : UtcDateTime
  bytes_received : F64
  bytes_sent : F64
deriving DecidableEq, Repr

/-- `src/lib.rs`: `Status` record. -/
structure Status where
  title : String
  clients : List Client
  timestamp : UtcDateTime
deriving DecidableEq, Repr

/-- `const START_CLIENT_LIST` in `src/lib.rs`. -/
def START_CLIENT_LIST : String := "CLIENT_LIST"

/-- `const START_TITLE` in `src/lib.rs`. -/
def START_TITLE : String := "TITLE"

/-- `const START_TIME` in `src/lib.rs`. -/
def START_TIME : String := "TIME"

/-- `const HEADER_START_LINE` in `src/lib.rs`. -/
def HEADER_START_LINE : String := "HEADER\tCLIENT_LIST"

/-- `const UNDEF` in `src/lib.rs`. -/
def UNDEF : String := "UNDEF"

/-- Rust `str::split(sep)` on a character list: the (possibly empty)
runs of characters between occurrences of `sep`.  Like the Rust
iterator, it always yields at least one piece, and the empty string
yields `[[]]`. -/
def splitListOn (sep : Char) : List Char → List (List Char)
  | [] => [[]]
  | c :: cs =>
    if c = sep then [] :: splitListOn sep cs
    else
      match splitListOn sep cs with
      | [] => [[c]]
      | g :: gs => (c :: g) :: gs

/-- Rust `str::split(sep)` on a `String`. -/
def splitOnChar (sep : Char) (s : String) : List String :=
  (splitListOn sep s.data).map (fun g => ⟨g⟩)

/-- Rust `str::starts_with(pre)`. -/
def startsWithStr (s pre : String) : Bool :=
  pre.data.isPrefixOf s.data

/-- Rust `String::pop()` used for its side effect: the string with its
last character removed (no-op on the empty string). -/
def strPop (s : String) : String := ⟨s.data.dropLast⟩

/-- Numeric value of a run of ASCII decimal digits. -/
def digitsVal (cs : List Char) : Nat :=
  cs.foldl (fun n c => n * 10 + (c.toNat - 48)) 0

/-- One or more ASCII decimal digits, as in Rust integer parsing. -/
def parseNatDigits (cs : List Char) : Option Nat :=
  if cs ≠ [] ∧ cs.all Char.isDigit then some (digitsVal cs) else none

/-- Smallest `i64` value. -/
def i64Min : Int := -(2 ^ 63)

/-- Largest `i64` value. -/
def i64Max : Int := 2 ^ 63 - 1

/-- Rust `<i64 as FromStr>::from_str` (`vec[8].parse::<i64>()`):
an optional single `+`/`-` sign followed by one or more ASCII decimal
digits, with the resulting value in the `i64` range.  Failure is the
`ParseIntError` wrapped as `OpenvpnError::ParseInt` by the `From`
impl in `src/error.rs`. -/
def parseI64 (s : String) : Except OpenvpnError Int :=
  let core : Option Int :=
    match s.data with
    | '+' :: rest => (parseNatDigits rest).map (fun n => (n : Int))
    | '-' :: rest => (parseNatDigits rest).map (fun n => -(n : Int))
    | cs => (parseNatDigits cs).map (fun n => (n : Int))
  match core with
  | some v => if i64Min ≤ v ∧ v ≤ i64Max then .ok v else .error .ParseInt
  | none => .error .ParseInt

/-- ASCII lower-casing of one character. -/
def toLowerAscii (c : Char) : Char :=
  if 'A' ≤ c ∧ c ≤ 'Z' then Char.ofNat (c.toNat + 32) else c

/-- The case-insensitive `inf`/`infinity`/`nan` alternatives of the
`f64::from_str` grammar. -/
def isInfNanStr (cs : List Char) : Bool :=
  let l := cs.map toLowerAscii
  l = "inf".data || l = "infinity".data || l = "nan".data

/-- The `Exp ::= ('e'|'E') Sign? Digit+` production of the
`f64::from_str` grammar. -/
def isExpPart (cs : List Char) : Bool :=
  match cs with
  | 'e' :: rest =>
    (match rest with
     | '+' :: ds => !ds.isEmpty && ds.all Char.isDigit
     | '-' :: ds => !ds.isEmpty && ds.all Char.isDigit
     | ds => !ds.isEmpty && ds.all Char.isDigit)
  | 'E' :: rest =>
    (match rest with
     | '+' :: ds => !ds.isEmpty && ds.all Char.isDigit
     | '-' :: ds => !ds.isEmpty && ds.all Char.isDigit
     | ds => !ds.isEmpty && ds.all Char.isDigit)
  | _ => false

/-- The `Number` production of the `f64::from_str` grammar:
`Digit* '.' Digit+ Exp?` or `Digit+ '.' Exp?` or `Digit+ Exp?`. -/
def numberPart (cs : List Char) : Bool :=
  let ds := cs.takeWhile Char.isDigit
  let rest := cs.dropWhile Char.isDigit
  match rest with
  | [] => !ds.isEmpty
  | '.' :: rest2 =>
    let fs := rest2.takeWhile Char.isDigit
    let rest3 := rest2.dropWhile Char.isDigit
    (!ds.isEmpty || !fs.isEmpty) && (rest3.isEmpty || isExpPart rest3)
  | other => !ds.isEmpty && isExpPart other

/-- Acceptance of Rust `<f64 as FromStr>::from_str`
(`vec[5].parse::<f64>()`, `vec[6].parse::<f64>()`). -/
def isValidF64 (s : String) : Bool :=
  let body :=
    match s.data with
    | '+' :: rest => rest
    | '-' :: rest => rest
    | cs => cs
  isInfNanStr body || numberPart body

/-- Rust `f64` parsing with the error wrapped as
`OpenvpnError::ParseFloat` by the `From` impl in `src/error.rs`. -/
def parseF64 (s : String) : Except OpenvpnError F64 :=
  if isValidF64 s then .ok ⟨s⟩ else .error .ParseFloat

/-- `get_utc_start_time` in `src/lib.rs`: `Utc.timestamp(timestamp, 0)`. -/
def get_utc_start_time (timestamp : Int) : UtcDateTime :=
  ⟨timestamp⟩

/-- `split_line_by_tabs` in `src/lib.rs`. -/
def split_line_by_tabs (raw_line : String) (expected_length : Nat) :
    Except OpenvpnError (List String) :=
  let vec := splitOnChar '\t' raw_line
  if vec.length < expected_length then
    .error (.MalformedResponse raw_line)
  else
    .ok vec

/-- `parse_title` in `src/lib.rs`.  Note that `title.pop()` removes the
last character of field 1 unconditionally. -/
def parse_title (raw_title : String) : Except OpenvpnError String :=
  match split_line_by_tabs raw_title 2 with
  | .error e => .error e
  | .ok vec => .ok (strPop (vec.getD 1 ""))

/-- `parse_timestamp` in `src/lib.rs`.  As in the source, the last
character of field 2 is removed unconditionally before decoding. -/
def parse_timestamp (raw_timestamp : String) : Except OpenvpnError UtcDateTime :=
  match split_line_by_tabs raw_timestamp 3 with
  | .error e => .error e
  | .ok vec =>
    match parseI64 (strPop (vec.getD 2 "")) with
    | .error e => .error e
    | .ok timestamp => .ok (get_utc_start_time timestamp)

/-- `parse_client` in `src/lib.rs`.  Field accesses `vec[i]` are in
bounds whenever `split_line_by_tabs` succeeds (proved below), so the
`getD` defaults are never used. -/
def parse_client (raw_client : String) : Except OpenvpnError Client :=
  match split_line_by_tabs raw_client 9 with
  | .error e => .error e
  | .ok vec =>
    let name := vec.getD 1 ""
    match (splitOnChar ':' (vec.getD 2 "")).head? with
    | none => .error (.MalformedResponse raw_client)
    | some address =>
      match parseI64 (vec.getD 8 "") with
      | .error e => .error e
      | .ok timestamp =>
        match parseF64 (vec.getD 5 "") with
        | .error e => .error e
        | .ok bytes_received =>
          match parseF64 (vec.getD 6 "") with
          | .error e => .error e
          | .ok bytes_sent =>
            .ok { name := name
                  ip_address := address
                  connected_since := get_utc_start_time timestamp
                  bytes_received := bytes_received
                  bytes_sent := bytes_sent }

/-- The mutable loop state of `parse_status_output` in `src/lib.rs`. -/
structure ParseState where
  clients : List Client
  has_client_list : Bool
  has_title : Bool
  has_timestamp : Bool
  timestamp : UtcDateTime
  title : String
deriving DecidableEq, Repr

/-- The initial loop state of `parse_status_output`; `now` stands for
the `Utc::now()` default timestamp. -/
def initState (now : UtcDateTime) : ParseState :=
  { clients := []
    has_client_list := false
    has_title := false
    has_timestamp := false
    timestamp := now
    title := "" }

/-- One iteration of the `for s in split` loop body of
`parse_status_output`. -/
def processLine (st : ParseState) (line : String) : Except OpenvpnError ParseState :=
  if startsWithStr line HEADER_START_LINE then
    .ok { st with has_client_list := true }
  else if startsWithStr line START_CLIENT_LIST then
    match parse_client line with
    | .error e => .error e
    | .ok client =>
      if client.name ≠ UNDEF then
        .ok { st with clients := st.clients ++ [client] }
      else
        .ok st
  else if startsWithStr line START_TITLE then
    match parse_title line with
    | .error e => .error e
    | .ok t => .ok { st with has_title := true, title := t }
  else if startsWithStr line START_TIME then
    match parse_timestamp line with
    | .error e => .error e
    | .ok ts => .ok { st with has_timestamp := true, timestamp := ts }
  else
    .ok st

/-- The `for` loop of `parse_status_output` with the `?` early returns. -/
def processLines (st : ParseState) : List String → Except OpenvpnError ParseState
  | [] => .ok st
  | l :: ls =>
    match processLine st l with
    | .error e => .error e
    | .ok st' => processLines st' ls

/-- `parse_status_output` in `src/lib.rs`.  `now` models the
`Utc::now()` used to initialise the timestamp accumulator. -/
def parse_status_output (now : UtcDateTime) (output : String) :
    Except OpenvpnError Status :=
  match processLines (initState now) (splitOnChar '\n' output) with
  | .error e => .error e
  | .ok st =>
    if !st.has_client_list || !st.has_title || !st.has_timestamp then
      .error (.MalformedResponse output)
    else
      .ok { title := st.title, clients := st.clients, timestamp := st.timestamp }

/-- Specification helper (theorem statements only): the line is treated
by the classifier chain of `parse_status_output` as a data line whose
tab-split has fewer fields than its record type requires. -/
def shapeBad (line : String) : Bool :=
  if startsWithStr line HEADER_START_LINE then false
  else if startsWithStr line START_CLIENT_LIST then
    (splitOnChar '\t' line).length < 9
  else if startsWithStr line START_TITLE then
    (splitOnChar '\t' line).length < 2
  else if startsWithStr line START_TIME then
    (splitOnChar '\t' line).length < 3
  else false

/-- Specification helper (theorem statements only): the `Client` that a
line contributes to the output sequence, if any — it must be classified
as a `CLIENT_LIST` line, decode successfully, and not carry the `UNDEF`
sentinel name. -/
def clientOf (line : String) : Option Client :=
  if startsWithStr line HEADER_START_LINE then none
  else if startsWithStr line START_CLIENT_LIST then
    match parse_client line with
    | .error _ => none
    | .ok c => if c.name ≠ UNDEF then some c else none
  else none

/-- Specification helper: the line is classified as a `TITLE` line by
the chain of `parse_status_output`. -/
def isTitleLine (line : String) : Bool :=
  !startsWithStr line HEADER_START_LINE &&
  !startsWithStr line START_CLIENT_LIST &&
  startsWithStr line START_TITLE

/-- Specification helper: the line is classified as a `TIME` line by
the chain of `parse_status_output`. -/
def isTimeLine (line : String) : Bool :=
  !startsWithStr line HEADER_START_LINE &&
  !startsWithStr line START_CLIENT_LIST &&
  !startsWithStr line START_TITLE &&
  startsWithStr line START_TIME

/-- Specification helper: the last element of the list satisfying `p`,
if any. -/
def lastSuch (p : String → Bool) (ls : List String) : Option String :=
  ls.foldl (fun acc l => if p l then some l else acc) none

/-- Abstraction of `std::net::SocketAddr`. -/
structure SocketAddr where
  addr : String
deriving DecidableEq, Repr

/-- `CommandManager` in `src/lib.rs` (timeouts as abstract millisecond
counts). -/
structure CommandManager where
  management_address : SocketAddr
  connect_timeout : Option Nat
  read_timeout : Option Nat
deriving DecidableEq, Repr

/-- `CommandManagerBuilder` in `src/lib.rs`. -/
structure CommandManagerBuilder where
  management_url : String
  connect_timeout : Option Nat
  read_timeout : Option Nat
deriving DecidableEq, Repr

/-- `CommandManagerBuilder::build` in `src/lib.rs`.  The effectful call
`self.management_url.to_socket_addrs()` is abstracted by the `resolved`
argument: an I/O failure message, or the list of resolved endpoints in
iterator order (`addrs_iter.next()` is `List.head?`). -/
def CommandManagerBuilder.build (b : CommandManagerBuilder)
    (resolved : Except String (List SocketAddr)) :
    Except OpenvpnError CommandManager :=
  match resolved with
  | .error e => .error (.IoErr e)
  | .ok addrs =>
    match addrs.head? with
    | some a =>
      .ok { management_address := a
            read_timeout := b.read_timeout
            connect_timeout := b.connect_timeout }
    | none => .error (.MissingURLInput b.management_url)

/-! ### Basic lemmas about the splitting primitives -/

theorem splitListOn_ne_nil (sep : Char) (cs : List Char) :
    splitListOn sep cs ≠ [] := by
  induction cs with
  | nil => simp [splitListOn]
  | cons c cs ih =>
    unfold splitListOn
    by_cases hc : c = sep
    · simp [hc]
    · simp only [hc, if_false]
      cases h : splitListOn sep cs with
      | nil => simp
      | cons g gs => simp

theorem head?_splitListOn (sep : Char) (cs : List Char) :
    (splitListOn sep cs).head? =
      some (cs.takeWhile (fun c => !(decide (c = sep)))) := by
  induction cs with
  | nil => rfl
  | cons c cs ih =>
    unfold splitListOn
    by_cases hc : c = sep
    · simp [hc, List.takeWhile_cons]
    · simp only [hc, if_false]
      cases h : splitListOn sep cs with
      | nil => exact absurd h (splitListOn_ne_nil sep cs)
      | cons g gs =>
        rw [h] at ih
        simp only [List.head?_cons, Option.some.injEq] at ih
        simp [List.takeWhile_cons, hc, ← ih]

theorem head?_splitOnChar (sep : Char) (s : String) :
    (splitOnChar sep s).head? =
      some ⟨s.data.takeWhile (fun c => !(decide (c = sep)))⟩ := by
  unfold splitOnChar
  rw [List.head?_map, head?_splitListOn]
  rfl

theorem takeWhile_of_all {p : Char → Bool} :
    ∀ cs : List Char, cs.all p = true → cs.takeWhile p = cs := by
  intro cs h
  induction cs with
  | nil => rfl
  | cons c cs ih =>
    simp only [List.all_cons, Bool.and_eq_true] at h
    simp [List.takeWhile_cons, h.1, ih h.2]

/-! ### Error-shape lemmas for the field decoders -/

theorem split_line_by_tabs_ok {l : String} {k : Nat} {v : List String}
    (h : split_line_by_tabs l k = .ok v) :
    v = splitOnChar '\t' l ∧ k ≤ v.length := by
  unfold split_line_by_tabs at h
  by_cases hlen : (splitOnChar '\t' l).length < k
  · simp [hlen] at h
  · simp [hlen] at h
    subst h
    exact ⟨rfl, Nat.le_of_not_lt hlen⟩

theorem split_line_by_tabs_error {l : String} {k : Nat} {e : OpenvpnError}
    (h : split_line_by_tabs l k = .error e) :
    e = .MalformedResponse l ∧ (splitOnChar '\t' l).length < k := by
  unfold split_line_by_tabs at h
  by_cases hlen : (splitOnChar '\t' l).length < k
  · simp [hlen] at h
    exact ⟨h.symm, hlen⟩
  · simp [hlen] at h

theorem parseI64_error {s : String} {e : OpenvpnError}
    (h : parseI64 s = .error e) : e = .ParseInt := by
  unfold parseI64 at h
  dsimp only at h
  split at h
  · split at h
    · exact absurd h (by simp)
    · simpa using h.symm
  · simpa using h.symm

theorem parseF64_error {s : String} {e : OpenvpnError}
    (h : parseF64 s = .error e) : e = .ParseFloat := by
  unfold parseF64 at h
  split at h
  · exact absurd h (by simp)
  · simpa using h.symm

theorem parse_title_error {l : String} {e : OpenvpnError}
    (h : parse_title l = .error e) :
    e = .MalformedResponse l ∧ (splitOnChar '\t' l).length < 2 := by
  unfold parse_title at h
  split at h
  · rename_i e' he
    cases h
    exact split_line_by_tabs_error he
  · exact absurd h (by simp)

theorem parse_timestamp_error {l : String} {e : OpenvpnError}
    (h : parse_timestamp l = .error e) :
    (e = .MalformedResponse l ∧ (splitOnChar '\t' l).length < 3) ∨
      e = .ParseInt := by
  unfold parse_timestamp at h
  split at h
  · rename_i e' he
    cases h
    exact Or.inl (split_line_by_tabs_error he)
  · rename_i vec hvec
    split at h
    · rename_i e' he
      cases h
      exact Or.inr (parseI64_error he)
    · exact absurd h (by simp)

theorem parse_client_error {l : String} {e : OpenvpnError}
    (h : parse_client l = .error e) :
    (e = .MalformedResponse l ∧ (splitOnChar '\t' l).length < 9) ∨
      e = .ParseInt ∨ e = .ParseFloat := by
  unfold parse_client at h
  split at h
  · rename_i e' he
    cases h
    exact Or.inl (split_line_by_tabs_error he)
  · rename_i vec hvec
    dsimp only at h
    split at h
    · rename_i hhead
      rw [head?_splitOnChar] at hhead
      exact absurd hhead (by simp)
    · rename_i address hhead
      split at h
      · rename_i e' he
        cases h
        exact Or.inr (Or.inl (parseI64_error he))
      · rename_i t ht
        split at h
        · rename_i e' he
          cases h
          exact Or.inr (Or.inr (parseF64_error he))
        · rename_i br hbr
          split at h
          · rename_i e' he
            cases h
            exact Or.inr (Or.inr (parseF64_error he))
          · exact absurd h (by simp)

/-- Any `MalformedResponse` failure of `parse_client` comes from the
minimum-arity check, never from the address-extraction step. -/
theorem parse_client_malformed {l p : String}
    (h : parse_client l = .error (.MalformedResponse p)) :
    split_line_by_tabs l 9 = .error (.MalformedResponse p) ∧ p = l := by
  rcases parse_client_error h with ⟨he, hlen⟩ | he | he
  · cases he
    refine ⟨?_, rfl⟩
    unfold split_line_by_tabs
    simp [hlen]
  · exact absurd he (by simp)
  · exact absurd he (by simp)

/-! ### Lemmas about one loop iteration -/

theorem processLine_error {st : ParseState} {l : String} {e : OpenvpnError}
    (h : processLine st l = .error e) :
    (e = .MalformedResponse l ∧ shapeBad l = true) ∨
      e = .ParseInt ∨ e = .ParseFloat := by
  unfold processLine at h
  unfold shapeBad
  by_cases h1 : startsWithStr l HEADER_START_LINE
  · simp [h1] at h
  · simp only [h1, if_false, if_true, Bool.false_eq_true] at h ⊢
    by_cases h2 : startsWithStr l START_CLIENT_LIST
    · simp only [h2, if_true] at h ⊢
      split at h
      · rename_i e' he
        cases h
        rcases parse_client_error he with ⟨hm, hlen⟩ | hi | hf
        · exact Or.inl ⟨hm, by simpa using hlen⟩
        · exact Or.inr (Or.inl hi)
        · exact Or.inr (Or.inr hf)
      · split at h <;> exact absurd h (by simp)
    · simp only [h2, if_false, Bool.false_eq_true] at h ⊢
      by_cases h3 : startsWithStr l START_TITLE
      · simp only [h3, if_true] at h ⊢
        split at h
        · rename_i e' he
          cases h
          rcases parse_title_error he with ⟨hm, hlen⟩
          exact Or.inl ⟨hm, by simpa using hlen⟩
        · exact absurd h (by simp)
      · simp only [h3, if_false, Bool.false_eq_true] at h ⊢
        by_cases h4 : startsWithStr l START_TIME
        · simp only [h4, if_true] at h ⊢
          split at h
          · rename_i e' he
            cases h
            rcases parse_timestamp_error he with ⟨hm, hlen⟩ | hi
            · exact Or.inl ⟨hm, by simpa using hlen⟩
            · exact Or.inr (Or.inl hi)
          · exact absurd h (by simp)
        · simp [h4] at h

theorem shapeBad_processLine {l : String} (st : ParseState)
    (h : shapeBad l = true) :
    processLine st l = .error (.MalformedResponse l) := by
  unfold shapeBad at h
  unfold processLine
  by_cases h1 : startsWithStr l HEADER_START_LINE
  · simp [h1] at h
  · simp only [h1, if_false, Bool.false_eq_true] at h ⊢
    by_cases h2 : startsWithStr l START_CLIENT_LIST
    · simp only [h2, if_true] at h ⊢
      have hsplit : split_line_by_tabs l 9 = .error (.MalformedResponse l) := by
        unfold split_line_by_tabs
        simp only [decide_eq_true_eq] at h
        simp [h]
      unfold parse_client
      rw [hsplit]
    · simp only [h2, if_false, Bool.false_eq_true] at h ⊢
      by_cases h3 : startsWithStr l START_TITLE
      · simp only [h3, if_true] at h ⊢
        have hsplit : split_line_by_tabs l 2 = .error (.MalformedResponse l) := by
          unfold split_line_by_tabs
          simp only [decide_eq_true_eq] at h
          simp [h]
        unfold parse_title
        rw [hsplit]
      · simp only [h3, if_false, Bool.false_eq_true] at h ⊢
        by_cases h4 : startsWithStr l START_TIME
        · simp only [h4, if_true] at h ⊢
          have hsplit : split_line_by_tabs l 3 = .error (.MalformedResponse l) := by
            unfold split_line_by_tabs
            simp only [decide_eq_true_eq] at h
            simp [h]
          unfold parse_timestamp
          rw [hsplit]
        · simp [h4] at h

theorem processLine_ok_clients {st st' : ParseState} {l : String}
    (h : processLine st l = .ok st') :
    st'.clients = st.clients ++ (clientOf l).toList := by
  unfold processLine at h
  split at h
  · rename_i h1
    cases h
    simp [clientOf, h1]
  · rename_i h1
    split at h
    · rename_i h2
      split at h
      · exact absurd h (by simp)
      · rename_i c hc
        split at h
        · rename_i hn
          cases h
          simp [clientOf, h1, h2, hc, hn]
        · rename_i hn
          cases h
          simp [clientOf, h1, h2, hc, hn]
    · rename_i h2
      split at h
      · rename_i h3
        split at h
        · exact absurd h (by simp)
        · rename_i t ht
          cases h
          simp [clientOf, h1, h2, h3]
      · rename_i h3
        split at h
        · rename_i h4
          split at h
          · exact absurd h (by simp)
          · rename_i ts hts
            cases h
            simp [clientOf, h1, h2, h3, h4]
        · rename_i h4
          cases h
          simp [clientOf, h1, h2, h3, h4]

theorem processLine_ok_title {st st' : ParseState} {l : String}
    (h : processLine st l = .ok st') :
    (isTitleLine l = true → parse_title l = .ok st'.title) ∧
      (isTitleLine l = false → st'.title = st.title) := by
  unfold processLine at h
  split at h
  · rename_i h1
    cases h
    simp [isTitleLine, h1]
  · rename_i h1
    split at h
    · rename_i h2
      split at h
      · exact absurd h (by simp)
      · rename_i c hc
        split at h
        · rename_i hn
          cases h
          simp [isTitleLine, h1, h2]
        · rename_i hn
          cases h
          simp [isTitleLine, h1, h2]
    · rename_i h2
      split at h
      · rename_i h3
        split at h
        · exact absurd h (by simp)
        · rename_i t ht
          cases h
          simp [isTitleLine, h1, h2, h3, ht]
      · rename_i h3
        split at h
        · rename_i h4
          split at h
          · exact absurd h (by simp)
          · rename_i ts hts
            cases h
            simp [isTitleLine, h1, h2, h3]
        · rename_i h4
          cases h
          simp [isTitleLine, h1, h2, h3]

theorem processLine_ok_time {st st' : ParseState} {l : String}
    (h : processLine st l = .ok st') :
    (isTimeLine l = true → parse_timestamp l = .ok st'.timestamp) ∧
      (isTimeLine l = false → st'.timestamp = st.timestamp) := by
  unfold processLine at h
  split at h
  · rename_i h1
    cases h
    simp [isTimeLine, h1]
  · rename_i h1
    split at h
    · rename_i h2
      split at h
      · exact absurd h (by simp)
      · rename_i c hc
        split at h
        · rename_i hn
          cases h
          simp [isTimeLine, h1, h2]
        · rename_i hn
          cases h
          simp [isTimeLine, h1, h2]
    · rename_i h2
      split at h
      · rename_i h3
        split at h
        · exact absurd h (by simp)
        · rename_i t ht
          cases h
          simp [isTimeLine, h1, h2, h3]
      · rename_i h3
        split at h
        · rename_i h4
          split at h
          · exact absurd h (by simp)
          · rename_i ts hts
            cases h
            simp [isTimeLine, h1, h2, h3, h4, hts]
        · rename_i h4
          cases h
          simp [isTimeLine, h1, h2, h3, h4]

/-! ### Lemmas about the whole loop -/

theorem processLines_append (st : ParseState) (xs ys : List String) :
    processLines st (xs ++ ys) =
      match processLines st xs with
      | .error e => .error e
      | .ok st' => processLines st' ys := by
  induction xs generalizing st with
  | nil => simp [processLines]
  | cons l ls ih =>
    simp only [List.cons_append, processLines]
    cases h : processLine st l with
    | error e => rfl
    | ok st' => exact ih st'

theorem processLines_error_mem {st : ParseState} {ls : List String}
    {e : OpenvpnError} (h : processLines st ls = .error e) :
    ∃ l ∈ ls, ∃ st', processLine st' l = .error e := by
  induction ls generalizing st with
  | nil => exact absurd h (by simp [processLines])
  | cons l ls ih =>
    unfold processLines at h
    split at h
    · rename_i e' he
      cases h
      exact ⟨l, by simp, st, he⟩
    · rename_i st' hst
      rcases ih h with ⟨l', hl', st'', he⟩
      exact ⟨l', by simp [hl'], st'', he⟩

theorem processLines_ok_clients {ls : List String} :
    ∀ {st₀ st : ParseState}, processLines st₀ ls = .ok st →
      st.clients = st₀.clients ++ ls.filterMap clientOf := by
  induction ls with
  | nil =>
    intro st₀ st h
    cases h
    simp
  | cons l ls ih =>
    intro st₀ st h
    unfold processLines at h
    split at h
    · exact absurd h (by simp)
    · rename_i st₁ hst₁
      rw [List.filterMap_cons]
      have h₁ := processLine_ok_clients hst₁
      cases hc : clientOf l with
      | none =>
        rw [hc] at h₁
        simp only [Option.toList_none, List.append_nil] at h₁
        rw [ih h, h₁]
      | some c =>
        rw [hc] at h₁
        simp only [Option.toList_some] at h₁
        rw [ih h, h₁]
        simp

theorem lastSuch_foldl (p : String → Bool) (ls : List String) :
    ∀ acc : Option String,
      ls.foldl (fun a l => if p l then some l else a) acc =
        match lastSuch p ls with
        | some x => some x
        | none => acc := by
  induction ls with
  | nil => intro acc; rfl
  | cons l ls ih =>
    intro acc
    show ls.foldl _ (if p l then some l else acc) = _
    rw [ih]
    have hl : lastSuch p (l :: ls) =
        match lastSuch p ls with
        | some x => some x
        | none => if p l then some l else none := by
      show ls.foldl _ (if p l then some l else none) = _
      rw [ih]
    rw [hl]
    cases lastSuch p ls with
    | some x => rfl
    | none => cases hp : p l <;> simp [hp]

theorem lastSuch_cons (p : String → Bool) (l : String) (ls : List String) :
    lastSuch p (l :: ls) =
      match lastSuch p ls with
      | some x => some x
      | none => if p l then some l else none := by
  show ls.foldl _ (if p l then some l else none) = _
  rw [lastSuch_foldl]

theorem processLines_ok_title {ls : List String} :
    ∀ {st₀ st : ParseState}, processLines st₀ ls = .ok st →
      (lastSuch isTitleLine ls = none → st.title = st₀.title) ∧
        (∀ l, lastSuch isTitleLine ls = some l → parse_title l = .ok st.title) := by
  induction ls with
  | nil =>
    intro st₀ st h
    cases h
    exact ⟨fun _ => rfl, fun l hl => by simp [lastSuch] at hl⟩
  | cons l ls ih =>
    intro st₀ st h
    unfold processLines at h
    split at h
    · exact absurd h (by simp)
    · rename_i st₁ hst₁
      have hone := processLine_ok_title hst₁
      rcases ih h with ⟨hnone, hsome⟩
      rw [lastSuch_cons]
      cases hrest : lastSuch isTitleLine ls with
      | some x =>
        exact ⟨by simp, fun l' hl' => by
          simp only [Option.some.injEq] at hl'
          exact hl' ▸ hsome x hrest⟩
      | none =>
        cases hp : isTitleLine l with
        | true =>
          refine ⟨by simp, fun l' hl' => ?_⟩
          simp only [if_true, Option.some.injEq] at hl'
          subst hl'
          rw [hnone hrest]
          exact hone.1 hp
        | false =>
          refine ⟨fun _ => ?_, fun l' hl' => by simp [hp] at hl'⟩
          rw [hnone hrest]
          exact hone.2 hp

theorem processLines_ok_time {ls : List String} :
    ∀ {st₀ st : ParseState}, processLines st₀ ls = .ok st →
      (lastSuch isTimeLine ls = none → st.timestamp = st₀.timestamp) ∧
        (∀ l, lastSuch isTimeLine ls = some l →
          parse_timestamp l = .ok st.timestamp) := by
  induction ls with
  | nil =>
    intro st₀ st h
    cases h
    exact ⟨fun _ => rfl, fun l hl => by simp [lastSuch] at hl⟩
  | cons l ls ih =>
    intro st₀ st h
    unfold processLines at h
    split at h
    · exact absurd h (by simp)
    · rename_i st₁ hst₁
      have hone := processLine_ok_time hst₁
      rcases ih h with ⟨hnone, hsome⟩
      rw [lastSuch_cons]
      cases hrest : lastSuch isTimeLine ls with
      | some x =>
        exact ⟨by simp, fun l' hl' => by
          simp only [Option.some.injEq] at hl'
          exact hl' ▸ hsome x hrest⟩
      | none =>
        cases hp : isTimeLine l with
        | true =>
          refine ⟨by simp, fun l' hl' => ?_⟩
          simp only [if_true, Option.some.injEq] at hl'
          subst hl'
          rw [hnone hrest]
          exact hone.1 hp
        | false =>
          refine ⟨fun _ => ?_, fun l' hl' => by simp [hp] at hl'⟩
          rw [hnone hrest]
          exact hone.2 hp

/-! ### Inversion lemmas for the top-level parse -/

theorem parse_status_output_ok_inv {now : UtcDateTime} {out : String}
    {s : Status} (h : parse_status_output now out = .ok s) :
    ∃ st : ParseState,
      processLines (initState now) (splitOnChar '\n' out) = .ok st ∧
        st.has_client_list = true ∧ st.has_title = true ∧
        st.has_timestamp = true ∧
        s = ⟨st.title, st.clients, st.timestamp⟩ := by
  unfold parse_status_output at h
  split at h
  · exact absurd h (by simp)
  · rename_i st hst
    split at h
    · exact absurd h (by simp)
    · rename_i hcond
      simp only [Bool.or_eq_true, Bool.not_eq_true', not_or] at hcond
      obtain ⟨⟨hc1, hc2⟩, hc3⟩ := hcond
      refine ⟨st, hst, ?_, ?_, ?_, ?_⟩
      · simpa using hc1
      · simpa using hc2
      · simpa using hc3
      · cases h
        rfl

theorem parse_status_output_flags_missing {now : UtcDateTime} {out : String}
    {st : ParseState}
    (h : processLines (initState now) (splitOnChar '\n' out) = .ok st)
    (hflag : st.has_client_list = false ∨ st.has_title = false ∨
      st.has_timestamp = false) :
    parse_status_output now out = .error (.MalformedResponse out) := by
  unfold parse_status_output
  rw [h]
  have : (!st.has_client_list || !st.has_title || !st.has_timestamp) = true := by
    rcases hflag with hf | hf | hf <;> simp [hf]
  simp [this]

theorem clientOf_name {l : String} {c : Client} (h : clientOf l = some c) :
    c.name ≠ UNDEF := by
  unfold clientOf at h
  split at h
  · exact absurd h (by simp)
  · split at h
    · split at h
      · exact absurd h (by simp)
      · split at h
        · rename_i hn
          cases h
          exact hn
        · exact absurd h (by simp)
    · exact absurd h (by simp)

/-- If some line of the response makes its iteration fail, the whole
parse aborts immediately with that iteration's error. -/
theorem parse_status_output_abort {now : UtcDateTime} {out : String}
    {pre post : List String} {l : String} {st : ParseState}
    {e : OpenvpnError}
    (heq : splitOnChar '\n' out = pre ++ l :: post)
    (hpre : processLines (initState now) pre = .ok st)
    (hline : processLine st l = .error e) :
    parse_status_output now out = .error e := by
  unfold parse_status_output
  rw [heq, processLines_append, hpre]
  simp only [processLines, hline]

/-! ### The claims -/

/-- C1: parsing the response
`"TITLE\tt\r\nTIME\ttimestamp\t1000\r\nHEADER\tCLIENT_LIST\r\nEND"`
succeeds and returns a `Status` with title `"t"`, timestamp equal to the
UTC time point for Unix epoch second 1000, and an empty client
sequence (for every choice of the `Utc::now()` default). -/
theorem C1_scenario_a (now : UtcDateTime) :
    parse_status_output now
        "TITLE\tt\r\nTIME\ttimestamp\t1000\r\nHEADER\tCLIENT_LIST\r\nEND" =
      .ok ⟨"t", [], get_utc_start_time 1000⟩ := rfl

/-- Witness for C1 at a concrete `now`. -/
theorem C1_scenario_a_witness :
    parse_status_output ⟨0⟩
        "TITLE\tt\r\nTIME\ttimestamp\t1000\r\nHEADER\tCLIENT_LIST\r\nEND" =
      .ok ⟨"t", [], get_utc_start_time 1000⟩ := C1_scenario_a ⟨0⟩

/-- C4: no `Client` in a successfully parsed `Status` has the sentinel
name `UNDEF`, regardless of the other fields on its line. -/
theorem C4_no_undef_clients (now : UtcDateTime) (out : String) (st : Status)
    (h : parse_status_output now out = .ok st) :
    ∀ c ∈ st.clients, c.name ≠ UNDEF := by
  rcases parse_status_output_ok_inv h with ⟨st', hst', _, _, _, hs⟩
  subst hs
  intro c hc
  have hcl := processLines_ok_clients hst'
  simp only [initState, List.nil_append] at hcl
  simp only [hcl] at hc
  rcases List.mem_filterMap.mp hc with ⟨l, _, hcof⟩
  exact clientOf_name hcof

/-- Witness for C4 at a concrete successfully parsed response with one
client line. -/
theorem C4_no_undef_clients_witness :
    (Client.mk "n" "a" ⟨3⟩ ⟨"1"⟩ ⟨"2"⟩).name ≠ UNDEF :=
  C4_no_undef_clients ⟨0⟩
    "TITLE\tt\r\nTIME\ttimestamp\t1000\r\nHEADER\tCLIENT_LIST\r\nCLIENT_LIST\tn\ta:1\tv\t\t1\t2\td\t3\nEND"
    ⟨"t", [⟨"n", "a", ⟨3⟩, ⟨"1"⟩, ⟨"2"⟩⟩], ⟨1000⟩⟩ (by decide)
    ⟨"n", "a", ⟨3⟩, ⟨"1"⟩, ⟨"2"⟩⟩ (by decide)

/-- C5: the client sequence of a successfully parsed response is
exactly the per-line contributions of the response's lines, in line
order — so ordering follows appearance order and duplicate lines each
contribute their own `Client`. -/
theorem C5_client_order_and_duplicates (now : UtcDateTime) (out : String)
    (st : Status) (h : parse_status_output now out = .ok st) :
    st.clients = (splitOnChar '\n' out).filterMap clientOf := by
  rcases parse_status_output_ok_inv h with ⟨st', hst', _, _, _, hs⟩
  subst hs
  have hcl := processLines_ok_clients hst'
  simpa [initState] using hcl

/-- Witness for C5 at a concrete response with two identical
`CLIENT_LIST` lines: both appear, in order, unmerged. -/
theorem C5_client_order_and_duplicates_witness :
    (Status.mk "t"
        [⟨"n", "a", ⟨3⟩, ⟨"1"⟩, ⟨"2"⟩⟩, ⟨"n", "a", ⟨3⟩, ⟨"1"⟩, ⟨"2"⟩⟩]
        ⟨1⟩).clients =
      (splitOnChar '\n'
        "TITLE\ttt\nTIME\ttimestamp\t10\nHEADER\tCLIENT_LIST\nCLIENT_LIST\tn\ta:1\tv\t\t1\t2\td\t3\nCLIENT_LIST\tn\ta:1\tv\t\t1\t2\td\t3\nEND").filterMap
        clientOf :=
  C5_client_order_and_duplicates ⟨0⟩
    "TITLE\ttt\nTIME\ttimestamp\t10\nHEADER\tCLIENT_LIST\nCLIENT_LIST\tn\ta:1\tv\t\t1\t2\td\t3\nCLIENT_LIST\tn\ta:1\tv\t\t1\t2\td\t3\nEND"
    _ (by decide)

/-- C9: when address resolution succeeds but yields zero endpoints,
`CommandManagerBuilder::build` fails with `MissingURLInput` carrying
the configured address string — a variant distinct from the generic
I/O error. -/
theorem C9_zero_resolution_missing_url (b : CommandManagerBuilder) :
    b.build (.ok []) = .error (.MissingURLInput b.management_url) ∧
      ∀ msg, OpenvpnError.MissingURLInput b.management_url ≠
        OpenvpnError.IoErr msg := by
  refine ⟨rfl, fun msg h => ?_⟩
  exact OpenvpnError.noConfusion h

/-- Witness for C9 at a concrete builder. -/
theorem C9_zero_resolution_missing_url_witness :
    (CommandManagerBuilder.mk "localhost:5555" none none).build (.ok []) =
      .error (.MissingURLInput "localhost:5555") :=
  (C9_zero_resolution_missing_url ⟨"localhost:5555", none, none⟩).1

/-- C2: the `MalformedResponse` error arises in exactly two shape
cases.  (i) Any `MalformedResponse` payload is either the whole
response text or one of its lines whose tab-split was too short for its
record type; (ii) if every line processes without error but a required
marker was never observed, the payload is the entire original response;
(iii) when the scan reaches a line whose tab-split is too short for its
record type, the parse aborts immediately with that single line's exact
text as payload. -/
theorem C2_malformed_response_cases (now : UtcDateTime) (out : String) :
    (∀ p, parse_status_output now out = .error (.MalformedResponse p) →
        p = out ∨ (p ∈ splitOnChar '\n' out ∧ shapeBad p = true)) ∧
      (∀ st, processLines (initState now) (splitOnChar '\n' out) = .ok st →
        (st.has_client_list = false ∨ st.has_title = false ∨
          st.has_timestamp = false) →
        parse_status_output now out = .error (.MalformedResponse out)) ∧
      (∀ pre l post st, splitOnChar '\n' out = pre ++ l :: post →
        processLines (initState now) pre = .ok st → shapeBad l = true →
        parse_status_output now out = .error (.MalformedResponse l)) := by
  refine ⟨?_, ?_, ?_⟩
  · intro p hp
    unfold parse_status_output at hp
    split at hp
    · rename_i e he
      cases hp
      rcases processLines_error_mem he with ⟨l, hl, st', hline⟩
      rcases processLine_error hline with ⟨heq, hbad⟩ | heq | heq
      · cases heq
        exact Or.inr ⟨hl, hbad⟩
      · exact absurd heq (by simp)
      · exact absurd heq (by simp)
    · split at hp
      · cases hp
        exact Or.inl rfl
      · exact absurd hp (by simp)
  · intro st hst hflag
    exact parse_status_output_flags_missing hst hflag
  · intro pre l post st heq hpre hbad
    exact parse_status_output_abort heq hpre (shapeBad_processLine st hbad)

/-- Witness for C2: a response whose lines all process but lack the
required markers fails with the full text as payload, and a response
whose first line is a short `TITLE` record aborts with that line as
payload. -/
theorem C2_malformed_response_cases_witness :
    parse_status_output ⟨0⟩ "no client string END" =
        .error (.MalformedResponse "no client string END") ∧
      parse_status_output ⟨0⟩ "TITLE" =
        .error (.MalformedResponse "TITLE") := by
  constructor
  · exact (C2_malformed_response_cases ⟨0⟩ "no client string END").2.1
      (initState ⟨0⟩) (by decide) (by decide)
  · exact (C2_malformed_response_cases ⟨0⟩ "TITLE").2.2
      [] "TITLE" [] (initState ⟨0⟩) (by decide) (by decide) (by decide)

/-- C8: duplicated well-formed `TITLE` or `TIME` lines do not make the
parse fail; on success the returned title and timestamp are the decoded
values of the last `TITLE` (resp. `TIME`) line observed. -/
theorem C8_last_title_time_wins (now : UtcDateTime) (out : String)
    (st : Status) (h : parse_status_output now out = .ok st) :
    (∀ l, lastSuch isTitleLine (splitOnChar '\n' out) = some l →
        parse_title l = .ok st.title) ∧
      (∀ l, lastSuch isTimeLine (splitOnChar '\n' out) = some l →
        parse_timestamp l = .ok st.timestamp) := by
  rcases parse_status_output_ok_inv h with ⟨st', hst', _, _, _, hs⟩
  subst hs
  exact ⟨fun l hl => (processLines_ok_title hst').2 l hl,
    fun l hl => (processLines_ok_time hst').2 l hl⟩

/-- Witness for C8 at a response with two `TITLE` and two `TIME`
lines: it parses successfully and the later values win. -/
theorem C8_last_title_time_wins_witness :
    parse_title "TITLE\tb\r" = .ok "b" ∧
      parse_timestamp "TIME\ttimestamp\t7\r" = .ok ⟨7⟩ := by
  have h := C8_last_title_time_wins ⟨0⟩
    "TITLE\ta\r\nTITLE\tb\r\nTIME\ttimestamp\t5\r\nTIME\ttimestamp\t7\r\nHEADER\tCLIENT_LIST\r\nEND"
    ⟨"b", [], ⟨7⟩⟩ (by decide)
  exact ⟨h.1 "TITLE\tb\r" (by decide), h.2 "TIME\ttimestamp\t7\r" (by decide)⟩

/-- C10: once the minimum-arity check passes, every positional field
access of `parse_client` (fields 1, 2, 5, 6, 8), `parse_title`
(field 1) and `parse_timestamp` (field 2) is in bounds; splitting any
string on `:` always yields a first element; and consequently every
`MalformedResponse` failure of `parse_client` comes from the arity
check — the address-extraction error branch is unreachable. -/
theorem C10_field_access_safety :
    (∀ l v, split_line_by_tabs l 9 = .ok v →
        1 < v.length ∧ 2 < v.length ∧ 5 < v.length ∧ 6 < v.length ∧
          8 < v.length) ∧
      (∀ l v, split_line_by_tabs l 2 = .ok v → 1 < v.length) ∧
      (∀ l v, split_line_by_tabs l 3 = .ok v → 2 < v.length) ∧
      (∀ s : String, (splitOnChar ':' s).head?.isSome = true) ∧
      (∀ l p, parse_client l = .error (.MalformedResponse p) →
        split_line_by_tabs l 9 = .error (.MalformedResponse p) ∧ p = l) := by
  refine ⟨?_, ?_, ?_, ?_, ?_⟩
  · intro l v hv
    have hlen := (split_line_by_tabs_ok hv).2
    omega
  · intro l v hv
    have hlen := (split_line_by_tabs_ok hv).2
    omega
  · intro l v hv
    have hlen := (split_line_by_tabs_ok hv).2
    omega
  · intro s
    rw [head?_splitOnChar]
    rfl
  · intro l p hp
    exact parse_client_malformed hp

/-- Witness for C10 at a concrete nine-field line, the empty string,
and a concrete short `CLIENT_LIST` line. -/
theorem C10_field_access_safety_witness :
    8 < (["a", "b", "c", "d", "e", "f", "g", "h", "i"] : List String).length ∧
      (splitOnChar ':' "").head?.isSome = true ∧
      split_line_by_tabs "CLIENT_LIST" 9 =
        .error (.MalformedResponse "CLIENT_LIST") := by
  refine ⟨?_, ?_, ?_⟩
  · exact (C10_field_access_safety.1 "a\tb\tc\td\te\tf\tg\th\ti"
      ["a", "b", "c", "d", "e", "f", "g", "h", "i"] (by decide)).2.2.2.2
  · exact C10_field_access_safety.2.2.2.1 ""
  · exact (C10_field_access_safety.2.2.2.2 "CLIENT_LIST" "CLIENT_LIST"
      (by decide)).1

/-- C7: the stored `ip_address` of a parsed client is the substring of
field 2 strictly before the first `:`; when field 2 contains no colon
the whole field is stored verbatim (and this is not an error). -/
theorem C7_ip_address_before_colon (l : String) (c : Client)
    (h : parse_client l = .ok c) :
    c.ip_address =
        ⟨((splitOnChar '\t' l).getD 2 "").data.takeWhile
          (fun ch => !(decide (ch = ':')))⟩ ∧
      (((splitOnChar '\t' l).getD 2 "").data.all
          (fun ch => !(decide (ch = ':'))) = true →
        c.ip_address = (splitOnChar '\t' l).getD 2 "") := by
  unfold parse_client at h
  split at h
  · exact absurd h (by simp)
  · rename_i vec hvec
    obtain ⟨hveq, -⟩ := split_line_by_tabs_ok hvec
    subst hveq
    dsimp only at h
    split at h
    · rename_i hhead
      rw [head?_splitOnChar] at hhead
      exact absurd hhead (by simp)
    · rename_i address hhead
      rw [head?_splitOnChar] at hhead
      have haddr : address =
          ⟨((splitOnChar '\t' l).getD 2 "").data.takeWhile
            (fun ch => !(decide (ch = ':')))⟩ := by
        simpa using hhead.symm
      split at h
      · exact absurd h (by simp)
      · split at h
        · exact absurd h (by simp)
        · split at h
          · exact absurd h (by simp)
          · cases h
            refine ⟨haddr, fun hall => ?_⟩
            rw [haddr, takeWhile_of_all _ hall]

/-- Witness for C7 at a client line whose field 2 has no colon: the
whole field is stored as the address. -/
theorem C7_ip_address_before_colon_witness :
    (Client.mk "n" "nocolon" ⟨3⟩ ⟨"1"⟩ ⟨"2"⟩).ip_address =
      (splitOnChar '\t' "CLIENT_LIST\tn\tnocolon\tv\t\t1\t2\td\t3").getD 2 "" :=
  (C7_ip_address_before_colon "CLIENT_LIST\tn\tnocolon\tv\t\t1\t2\td\t3"
    ⟨"n", "nocolon", ⟨3⟩, ⟨"1"⟩, ⟨"2"⟩⟩ (by decide)).2 (by decide)

/-- C6 counterexample: on a `CLIENT_LIST` line with at least nine
fields whose bytes-received field (`XX`) is not a decodable real
number, the parse fails with the integer-decode kind, not the
float-decode kind, because the connection-time field (`YY`, decoded
first) is also undecodable — refuting the claim that a bad
bytes-received field always yields the float-decode error. -/
theorem C6_decode_error_counterexample :
    isValidF64 "XX" = false ∧
      (splitOnChar '\t' "CLIENT_LIST\tn\ta:1\tv\t\tXX\t1\td\tYY").length = 9 ∧
      parse_status_output ⟨0⟩
          "TITLE\tt\r\nTIME\ttimestamp\t1000\r\nHEADER\tCLIENT_LIST\r\nCLIENT_LIST\tn\ta:1\tv\t\tXX\t1\td\tYY\nEND" =
        .error .ParseInt ∧
      OpenvpnError.ParseInt ≠ OpenvpnError.ParseFloat := by decide

/-- C6 (amended): on a `CLIENT_LIST` line with at least nine
tab-separated fields, the connection-time field (field 8) is decoded
first: if it is not a decodable base-10 `i64` the whole parse aborts
immediately with the integer-decode error kind; if it is decodable and
the bytes-received field (field 5) is not a decodable real number, the
whole parse aborts immediately with the float-decode error kind. -/
theorem C6_decode_error_kinds (now : UtcDateTime) (out : String)
    (pre post : List String) (l : String) (st : ParseState)
    (heq : splitOnChar '\n' out = pre ++ l :: post)
    (hpre : processLines (initState now) pre = .ok st)
    (hh : startsWithStr l HEADER_START_LINE = false)
    (hc : startsWithStr l START_CLIENT_LIST = true)
    (hlen : 9 ≤ (splitOnChar '\t' l).length) :
    (parseI64 ((splitOnChar '\t' l).getD 8 "") = .error .ParseInt →
        parse_status_output now out = .error .ParseInt) ∧
      (∀ t, parseI64 ((splitOnChar '\t' l).getD 8 "") = .ok t →
        parseF64 ((splitOnChar '\t' l).getD 5 "") = .error .ParseFloat →
        parse_status_output now out = .error .ParseFloat) := by
  have hsplit : split_line_by_tabs l 9 = .ok (splitOnChar '\t' l) := by
    unfold split_line_by_tabs
    simp [Nat.not_lt.mpr hlen]
  constructor
  · intro hi
    have hcl : parse_client l = .error .ParseInt := by
      unfold parse_client
      rw [hsplit]
      simp only [head?_splitOnChar, hi]
    exact parse_status_output_abort heq hpre (by
      unfold processLine
      simp [hh, hc, hcl])
  · intro t hi hf
    have hcl : parse_client l = .error .ParseFloat := by
      unfold parse_client
      rw [hsplit]
      simp only [head?_splitOnChar, hi, hf]
    exact parse_status_output_abort heq hpre (by
      unfold processLine
      simp [hh, hc, hcl])

/-- Witness for the amended C6 at two concrete responses: a bad
connection-time field aborts with the integer-decode kind, and a bad
bytes-received field with a good connection-time field aborts with the
float-decode kind. -/
theorem C6_decode_error_kinds_witness :
    parse_status_output ⟨0⟩
        "TITLE\tt\r\nTIME\ttimestamp\t1000\r\nHEADER\tCLIENT_LIST\r\nCLIENT_LIST\tn\ta:1\tv\t\t100\t1\td\tNAN_DATE\nEND" =
      .error .ParseInt ∧
      parse_status_output ⟨0⟩
          "TITLE\tt\r\nTIME\ttimestamp\t1000\r\nHEADER\tCLIENT_LIST\r\nCLIENT_LIST\tn\ta:1\tv\t\tNANS\t1\td\t3\nEND" =
        .error .ParseFloat := by
  constructor
  · exact (C6_decode_error_kinds ⟨0⟩
      "TITLE\tt\r\nTIME\ttimestamp\t1000\r\nHEADER\tCLIENT_LIST\r\nCLIENT_LIST\tn\ta:1\tv\t\t100\t1\td\tNAN_DATE\nEND"
      ["TITLE\tt\r", "TIME\ttimestamp\t1000\r", "HEADER\tCLIENT_LIST\r"]
      ["END"] "CLIENT_LIST\tn\ta:1\tv\t\t100\t1\td\tNAN_DATE"
      ⟨[], true, true, true, ⟨1000⟩, "t"⟩
      (by decide) (by decide) (by decide) (by decide) (by decide)).1
      (by decide)
  · exact (C6_decode_error_kinds ⟨0⟩
      "TITLE\tt\r\nTIME\ttimestamp\t1000\r\nHEADER\tCLIENT_LIST\r\nCLIENT_LIST\tn\ta:1\tv\t\tNANS\t1\td\t3\nEND"
      ["TITLE\tt\r", "TIME\ttimestamp\t1000\r", "HEADER\tCLIENT_LIST\r"]
      ["END"] "CLIENT_LIST\tn\ta:1\tv\t\tNANS\t1\td\t3"
      ⟨[], true, true, true, ⟨1000⟩, "t"⟩
      (by decide) (by decide) (by decide) (by decide) (by decide)).2
      3 (by decide) (by decide)

/-- C3 (divergence witness): on the crate's own integration-test
response, the trailing carriage return of the `CLIENT_LIST`
connection-time field is NOT stripped before decoding, so the parse
fails with the integer-decode error instead of succeeding; and a
`TITLE` line without a trailing carriage return loses the last
character of its title (`pop` is unconditional), so the field is not
decoded verbatim. -/
theorem C3_trailing_cr_divergence :
    parse_status_output ⟨0⟩
        "TITLE\ttest-title\r\nTIME\ttimestamp\t1547913893\r\nHEADER\tCLIENT_LIST\r\nCLIENT_LIST\ttest-client\t127.0.0.1:12345\t10.8.0.2\t\t100\t200\tdate-string\t1546277714\r\nEND" =
      .error .ParseInt ∧
      parseI64 "1546277714\r" = .error .ParseInt ∧
      parseI64 "1546277714" = .ok 1546277714 ∧
      parse_title "TITLE\tt" = .ok "" := by decide

end Openvpn
